import Mathlib

/-!
Verification development for the GitNexus SWE-bench evaluation runner.

The definitions below are a shallow embedding of the two source files
`eval/run_eval.py` and `eval/analysis/analyze_results.py`.  Python dicts are
modelled as association lists with Python's assignment semantics (updating an
existing key keeps its position, a new key is appended at the end); JSON files
on disk are modelled as explicit state values threaded through the functions;
monetary costs are modelled as rationals and counts as naturals; the external
agent/environment collaborators are modelled as an oracle assigning to each
instance id the observable behaviour of the `try:` body of `process_instance`
(either a raised exception or a completed run).
-/

/-- Python dict assignment `d[k] = v`: replace the first entry with key `k`
in place, or append a fresh entry at the end when `k` is absent. -/
def setKey {α : Type} : List (String × α) → String → α → List (String × α)
  | [], k, v => [(k, v)]
  | (k', v') :: rest, k, v =>
    if k' = k then (k, v) :: rest else (k', v') :: setKey rest k v

/-- The key set of a modelled Python dict (`d.keys()`). -/
def keys {α : Type} (d : List (String × α)) : List String := d.map Prod.fst

/-- One entry of `preds.json`, as written by `_update_preds`
(`run_eval.py` lines 240-244). -/
structure PredEntry where
  model_name_or_path : String
  instance_id : String
  model_patch : String
deriving Repr, DecidableEq

/-- The `gitnexus_metrics` sub-record reported by the agent
(`agent.gitnexus_metrics.to_dict()`), with the fields the two source files
read from it. -/
structure GN where
  total_tool_calls : Nat
  augmentation_hits : Nat
  augmentation_calls : Nat
  tool_calls : List (String × Nat)
deriving Repr, DecidableEq

/-- The result dict built by `process_instance` (`run_eval.py` lines 159-230).
`error` and `traceback` are `Option`s because the Python dict only gains those
keys in the `except` branch. -/
structure InstResult where
  instance_id : String
  model : String
  mode : String
  exit_status : Option String
  submission : String
  cost : Rat
  n_calls : Nat
  gitnexus_metrics : Option GN
  error : Option String
  traceback : Option String
deriving Repr, DecidableEq

/-- Outcome of the patch-extraction step (`run_eval.py` lines 207-212): the
`env.execute` call either returns an output string, or raises, in which case
the code falls back to the agent-reported submission `info.get("submission", "")`. -/
inductive PatchOutcome where
  | ok (output : String)
  | fails (info_submission : String)
deriving Repr, DecidableEq

/-- Observable behaviour of the body of the `try:` block of `process_instance`
for one instance: either some step of model/environment/agent construction or
the agent run raises an exception (captured by the `except` clause at line 214),
or the run completes with the agent's reported exit status, cost, call count and
GitNexus metrics, followed by the patch-extraction step. -/
inductive ExecBehavior where
  | raises (exc_type : String) (msg : String) (tb : String)
  | succeeds (exit_status : Option String) (cost : Rat) (n_calls : Nat)
      (gn : Option GN) (patch : PatchOutcome)
deriving Repr, DecidableEq

/-- `process_instance` (`run_eval.py` lines 141-230), with the external
collaborators abstracted into an `ExecBehavior`.  The initial result dict is
built at lines 159-168; a completed run fills in status/cost/calls/metrics and
the extracted (stripped) diff or the fallback submission; a raised exception is
captured into `exit_status` (the exception class name), `error` and `traceback`. -/
def process_instance (instance_id model_name mode_name : String)
    (b : ExecBehavior) : InstResult :=
  let base : InstResult :=
    { instance_id := instance_id, model := model_name, mode := mode_name,
      exit_status := none, submission := "", cost := 0, n_calls := 0,
      gitnexus_metrics := none, error := none, traceback := none }
  match b with
  | .raises exc_type msg tb =>
    { base with exit_status := some exc_type, error := some msg, traceback := some tb }
  | .succeeds ex c n gn patch =>
    let sub :=
      match patch with
      | .ok output => output.trim
      | .fails info_submission => info_submission
    { base with
        exit_status := ex, submission := sub, cost := c, n_calls := n,
        gitnexus_metrics := gn }

/-- `_update_preds` (`run_eval.py` lines 233-245): read the current content of
`preds.json` (the caller passes `{}` when the file does not exist) and assign
`data[instance_id] = {model_name_or_path, instance_id, model_patch}` where
`model_patch` is `result.get("submission", "")`. -/
def _update_preds (data : List (String × PredEntry))
    (instance_id model_name : String) (result : InstResult) :
    List (String × PredEntry) :=
  setKey data instance_id
    { model_name_or_path := model_name, instance_id := instance_id,
      model_patch := result.submission }

/-- The sequential dispatch loop of `run_configuration`
(`run_eval.py` lines 273-276) together with the `finally:` clause of each
`process_instance` call: process the work list in input order, and after each
instance update the predictions file (which exists from then on). -/
def runLoop (model_name mode_name : String) (oracle : String → ExecBehavior) :
    List String → Option (List (String × PredEntry)) →
    List InstResult × Option (List (String × PredEntry))
  | [], st => ([], st)
  | i :: rest, st =>
    let r := process_instance i model_name mode_name (oracle i)
    let st' := some (_update_preds (st.getD []) i model_name r)
    let out := runLoop model_name mode_name oracle rest st'
    (r :: out.1, out.2)

/-- The run summary dict written by `run_configuration`
(`run_eval.py` lines 293-303), restricted to its scalar fields.  `completed`
is line 299: the count of results whose `exit_status` is neither `None` nor
the literal string `"error"`. -/
structure RunSummary where
  run_id : String
  model : String
  mode : String
  total_instances : Nat
  completed : Nat
  total_cost : Rat
  total_api_calls : Nat
deriving Repr, DecidableEq

/-- Build the run summary from the collected results (`run_eval.py` lines 293-303). -/
def mk_summary (model_name mode_name : String) (results : List InstResult) :
    RunSummary :=
  { run_id := model_name ++ "_" ++ mode_name,
    model := model_name,
    mode := mode_name,
    total_instances := results.length,
    completed :=
      (results.filter (fun r =>
        !(r.exit_status == none) && !(r.exit_status == some "error"))).length,
    total_cost := (results.map (fun r => r.cost)).sum,
    total_api_calls := (results.map (fun r => r.n_calls)).sum }

/-- What one `run_configuration` call produces: the returned result list, the
final content of `preds.json` (`none` when the file still does not exist), the
number of `process_instance` invocations performed, and the summary written to
`summary.json` (`none` on the early return at line 267, which skips the
summary write). -/
structure RunOutput where
  results : List InstResult
  preds : Option (List (String × PredEntry))
  invocations : Nat
  summary : Option RunSummary
deriving Repr, DecidableEq

/-- `run_configuration` (`run_eval.py` lines 248-308), single-worker dispatch
path.  When `redo_existing` is unset and `preds.json` exists, instances whose
id is already a key of it are filtered out (lines 262-264); an empty filtered
list returns `[]` immediately without writing a summary (lines 265-267).
Otherwise every remaining instance goes through `process_instance` and the
summary is written at the end. -/
def run_configuration (model_name mode_name : String) (instances : List String)
    (oracle : String → ExecBehavior) (redo_existing : Bool)
    (preds0 : Option (List (String × PredEntry))) : RunOutput :=
  match redo_existing, preds0 with
  | false, some data =>
    let existing := keys data
    let work := instances.filter (fun i => !(existing.contains i))
    match work with
    | [] => { results := [], preds := some data, invocations := 0, summary := none }
    | w =>
      let out := runLoop model_name mode_name oracle w (some data)
      { results := out.1, preds := out.2, invocations := w.length,
        summary := some (mk_summary model_name mode_name out.1) }
  | _, _ =>
    let out := runLoop model_name mode_name oracle instances preds0
    { results := out.1, preds := out.2, invocations := instances.length,
      summary := some (mk_summary model_name mode_name out.1) }

/-! ### Configuration merging (`run_eval.py` lines 83-108) -/

/-- A YAML configuration value: a scalar (modelled as a natural number, enough
for the merge semantics, which only distinguishes dict values from non-dict
values) or a nested mapping. -/
inductive Val where
  | nat : Nat → Val
  | dict : List (String × Val) → Val

mutual

/-- `merge_configs` (`run_eval.py` lines 83-92) specialised to two arguments,
as invoked by `build_config` (line 108: `merge_configs(mode_config, model_config)`).
The first dict is the accumulated `result`, the second is iterated in order;
each of its entries is assigned into the result, recursing when both sides
hold dicts under the same key. -/
def merge_configs (a : List (String × Val)) :
    List (String × Val) → List (String × Val)
  | [] => a
  | (k, v) :: rest =>
    merge_configs (setKey a k (merge_entry (List.lookup k a) v)) rest
termination_by b => (sizeOf b, 1)

/-- The per-key merge step of `merge_configs` (lines 88-91): when the key is
already present with a dict value and the incoming value is a dict, merge
recursively; otherwise the incoming value wins. -/
def merge_entry : Option Val → Val → Val
  | some (Val.dict av), Val.dict bv => Val.dict (merge_configs av bv)
  | _, v => v
termination_by _o v => (sizeOf v, 0)

end

/-! ### Result analysis (`analysis/analyze_results.py`) -/

/-- Python `str.rsplit("_", 1)` restricted to its two outcomes: `none` when the
character list contains no underscore (Python returns the one-element list),
otherwise the pair of the parts before and after the last underscore. -/
def rsplit_last : List Char → Option (List Char × List Char)
  | [] => none
  | c :: rest =>
    match rsplit_last rest with
    | some (pre, suf) => some (c :: pre, suf)
    | none => if c = '_' then some ([], rest) else none

/-- The closed set of known mode tokens (`analyze_results.py` line 83). -/
def known_modes : List (List Char) :=
  [String.toList "baseline", String.toList "mcp",
   String.toList "augment", String.toList "full"]

/-- `parse_run_id` (`analyze_results.py` lines 79-87): split at the last
underscore; when the trailing part is a known mode token return the pair,
otherwise (including when there is no underscore) return the whole token as
the model and `"unknown"` as the mode. -/
def parse_run_id (run_id : List Char) : List Char × List Char :=
  match rsplit_last run_id with
  | some (pre, suf) =>
    if suf ∈ known_modes then (pre, suf) else (run_id, String.toList "unknown")
  | none => (run_id, String.toList "unknown")

/-- One per-instance trajectory record, restricted to the fields
`compute_metrics` and `gitnexus_usage` read from it:
`info.model_stats.instance_cost`, `info.model_stats.api_calls` and
`info.gitnexus.metrics` (`none` models an absent or empty metrics dict, which
is falsy in Python). -/
structure Traj where
  cost : Rat
  api_calls : Nat
  gn : Option GN
deriving Repr, DecidableEq

/-- One entry of `summary["results"]`, restricted to the fields the analyzer
reads: `cost`, `n_calls` and `gitnexus_metrics`. -/
structure SummaryResult where
  cost : Rat
  n_calls : Nat
  gn : Option GN
deriving Repr, DecidableEq

/-- The artifacts `load_run_results` collects for one run directory
(`analyze_results.py` lines 43-74): the predictions map, the run summary
(`none` models a missing or empty summary, both falsy) and the trajectory
records keyed by instance id. -/
structure RunData where
  preds : List (String × PredEntry)
  summary : Option (List SummaryResult)
  trajectories : List (String × Traj)
deriving Repr, DecidableEq

/-- `summary.get("results", [])`, over the modelled optional summary. -/
def summaryResults (rd : RunData) : List SummaryResult := rd.summary.getD []

/-- The per-record stats `(cost, api_calls, gitnexus-metrics)` read from the
trajectory loop of `compute_metrics` (lines 106-116). -/
def trajStats (rd : RunData) : List (Rat × Nat × Option GN) :=
  rd.trajectories.map (fun p => (p.2.cost, p.2.api_calls, p.2.gn))

/-- The per-record stats read from the summary fallback loop of
`compute_metrics` (lines 119-128). -/
def summaryStats (rd : RunData) : List (Rat × Nat × Option GN) :=
  (summaryResults rd).map (fun r => (r.cost, r.n_calls, r.gn))

/-- The single stats source `compute_metrics` draws from: the fallback branch
(line 119, `if not costs and summary:`) runs exactly when the trajectory loop
appended nothing — i.e. there are no trajectories — and a summary is present. -/
def statsSource (rd : RunData) : List (Rat × Nat × Option GN) :=
  match rd.trajectories, rd.summary with
  | [], some _ => summaryStats rd
  | _, _ => trajStats rd

/-- The GitNexus metric records contributing to the `gn_*` lists of
`compute_metrics` (appended only when the metrics dict is truthy:
`if gn:`). -/
def gnRecords (rd : RunData) : List GN :=
  (statsSource rd).filterMap (fun s => s.2.2)

/-- The metrics dict returned by `compute_metrics` (lines 133-146). -/
structure Metrics where
  n_instances : Nat
  n_with_patch : Nat
  patch_rate : Rat
  total_cost : Rat
  avg_cost : Rat
  total_api_calls : Nat
  avg_api_calls : Rat
  total_gn_tool_calls : Nat
  avg_gn_tool_calls : Rat
  total_augment_hits : Nat
  total_augment_calls : Nat
  augment_hit_rate : Rat
deriving Repr, DecidableEq

/-- `compute_metrics` (`analyze_results.py` lines 90-146). -/
def compute_metrics (rd : RunData) : Metrics :=
  let n_instances := rd.preds.length
  let n_with_patch :=
    (rd.preds.filter (fun p => !(p.2.model_patch.trim == ""))).length
  let stats := statsSource rd
  let total_cost := (stats.map (fun s => s.1)).sum
  let total_calls := (stats.map (fun s => s.2.1)).sum
  let gns := gnRecords rd
  let gn_tool_calls := gns.map GN.total_tool_calls
  let gn_augment_hits := gns.map GN.augmentation_hits
  let gn_augment_calls := gns.map GN.augmentation_calls
  { n_instances := n_instances,
    n_with_patch := n_with_patch,
    patch_rate := (n_with_patch : Rat) / ((max n_instances 1 : Nat) : Rat),
    total_cost := total_cost,
    avg_cost := total_cost / ((max n_instances 1 : Nat) : Rat),
    total_api_calls := total_calls,
    avg_api_calls := (total_calls : Rat) / ((max n_instances 1 : Nat) : Rat),
    total_gn_tool_calls := gn_tool_calls.sum,
    avg_gn_tool_calls :=
      if gn_tool_calls.isEmpty then 0
      else (gn_tool_calls.sum : Rat) / ((max gn_tool_calls.length 1 : Nat) : Rat),
    total_augment_hits := gn_augment_hits.sum,
    total_augment_calls := gn_augment_calls.sum,
    augment_hit_rate :=
      if gn_augment_calls.isEmpty then 0
      else (gn_augment_hits.sum : Rat) / ((max gn_augment_calls.sum 1 : Nat) : Rat) }

/-- The augmentation hits a single (possibly absent) metrics dict contributes
in the `gitnexus_usage` loops: `gn.get("augmentation_hits", 0)`. -/
def gnHits : Option GN → Nat
  | none => 0
  | some g => g.augmentation_hits

/-- The tool-call counts dict of a (possibly absent) metrics dict:
`gn.get("tool_calls", {})`. -/
def gnToolCalls : Option GN → List (String × Nat)
  | none => []
  | some g => g.tool_calls

/-- One `gitnexus_usage` accumulation pass over a `tool_calls` dict
(`analyze_results.py` lines 361-362 and 368-369):
`tool_totals[tool] = tool_totals.get(tool, 0) + count`. -/
def add_tool_calls (totals : List (String × Nat)) (tc : List (String × Nat)) :
    List (String × Nat) :=
  tc.foldl (fun acc p => setKey acc p.1 ((List.lookup p.1 acc).getD 0 + p.2)) totals

/-- The initial `tool_totals` dict of `gitnexus_usage` (line 356). -/
def gn_usage_init : List (String × Nat) :=
  [("query", 0), ("context", 0), ("impact", 0), ("cypher", 0), ("overview", 0)]

/-- The `tool_totals` dict `gitnexus_usage` builds for one run
(`analyze_results.py` lines 356-369): it accumulates the tool-call counts of
every trajectory record and then, in addition, of every entry of the run
summary's embedded result list. -/
def gn_usage_tool_totals (rd : RunData) : List (String × Nat) :=
  let t1 := rd.trajectories.foldl
    (fun acc p => add_tool_calls acc (gnToolCalls p.2.gn)) gn_usage_init
  (summaryResults rd).foldl (fun acc r => add_tool_calls acc (gnToolCalls r.gn)) t1

/-- The `augment_hits` counter `gitnexus_usage` builds for one run
(lines 357-370): the trajectory loop adds every trajectory's
`augmentation_hits`, and the summary loop then adds every summary result's
`augmentation_hits` on top. -/
def gn_usage_augment_hits (rd : RunData) : Nat :=
  let h1 := rd.trajectories.foldl (fun acc p => acc + gnHits p.2.gn) 0
  (summaryResults rd).foldl (fun acc r => acc + gnHits r.gn) h1

/-- The trajectory-derived augmentation-hit total alone (the first
`gitnexus_usage` loop, lines 359-363). -/
def traj_augment_hits (rd : RunData) : Nat :=
  rd.trajectories.foldl (fun acc p => acc + gnHits p.2.gn) 0

/-- The summary-derived augmentation-hit total alone (the second
`gitnexus_usage` loop, lines 366-370). -/
def summary_augment_hits (rd : RunData) : Nat :=
  (summaryResults rd).foldl (fun acc r => acc + gnHits r.gn) 0

/-! ### Concrete runs and stores used by the closed theorems below -/

/-- `build_config` (`run_eval.py` lines 95-108) with the model and mode config
directories abstracted into explicit stores mapping config names to their
parsed YAML content: a missing name is the `FileNotFoundError` branch, and a
successful lookup pair is merged as `merge_configs(mode_config, model_config)`. -/
def build_config (models modes : List (String × List (String × Val)))
    (model_name mode_name : String) : Except String (List (String × Val)) :=
  match List.lookup model_name models with
  | none => Except.error ("Model config not found: " ++ model_name)
  | some model_config =>
    match List.lookup mode_name modes with
    | none => Except.error ("Mode config not found: " ++ mode_name)
    | some mode_config => Except.ok (merge_configs mode_config model_config)

/-- A batch in which every instance except `i3` completes and `i3` always raises. -/
def oracle5 : String → ExecBehavior := fun i =>
  if i = "i3" then ExecBehavior.raises "ValueError" "boom" "tb-i3"
  else ExecBehavior.succeeds (some "submitted") 0 1 none (PatchOutcome.ok "diff")

/-- A GitNexus metrics record with one tool call, one augmentation hit and two
augmentation calls. -/
def gnMix : GN :=
  { total_tool_calls := 1, augmentation_hits := 1, augmentation_calls := 2,
    tool_calls := [("query", 1)] }

/-- A run holding both a trajectory record and a summary entry, each carrying
GitNexus metrics. -/
def rdMix : RunData :=
  { preds := [("i1", { model_name_or_path := "m", instance_id := "i1", model_patch := "diff" })],
    summary := some [{ cost := 1, n_calls := 2, gn := some gnMix }],
    trajectories := [("i1", { cost := 1, api_calls := 2, gn := some gnMix })] }

/-- A run directory with no predictions, no summary and no trajectories. -/
def rdEmpty : RunData := { preds := [], summary := none, trajectories := [] }

/-- A GitNexus metrics record with four tool calls and no augmentation data. -/
def gnFour : GN :=
  { total_tool_calls := 4, augmentation_hits := 0, augmentation_calls := 0,
    tool_calls := [] }

/-- A run with two predictions entries but a single metrics-bearing trajectory. -/
def rdTraj : RunData :=
  { preds := [("i1", { model_name_or_path := "m", instance_id := "i1", model_patch := "" }),
      ("i2", { model_name_or_path := "m", instance_id := "i2", model_patch := "" })],
    summary := none,
    trajectories := [("i1", { cost := 0, api_calls := 0, gn := some gnFour })] }

/-- A run with no predictions but one metrics-bearing trajectory. -/
def rdW : RunData :=
  { preds := [], summary := none,
    trajectories := [("i1", { cost := 0, api_calls := 0, gn := some gnFour })] }

/-! ### Association-list lemmas -/

theorem keys_cons {α : Type} (k : String) (v : α) (rest : List (String × α)) :
    keys ((k, v) :: rest) = k :: keys rest := rfl

theorem keys_nil {α : Type} : keys ([] : List (String × α)) = [] := rfl

theorem mem_keys_setKey {α : Type} (d : List (String × α)) (k : String) (v : α)
    (m : String) : m ∈ keys (setKey d k v) ↔ m ∈ keys d ∨ m = k := by
  induction d with
  | nil => simp [setKey, keys]
  | cons p rest ih =>
    obtain ⟨k', v'⟩ := p
    by_cases h : k' = k
    · subst h
      simp [setKey, keys_cons]
      tauto
    · rw [setKey, if_neg h, keys_cons, keys_cons]
      simp [ih]
      tauto

theorem lookup_setKey_self {α : Type} (d : List (String × α)) (k : String) (v : α) :
    List.lookup k (setKey d k v) = some v := by
  induction d with
  | nil => rw [setKey, List.lookup]; simp
  | cons p rest ih =>
    obtain ⟨k', v'⟩ := p
    by_cases h : k' = k
    · subst h
      rw [setKey, if_pos rfl, List.lookup]
      simp
    · have hb : (k == k') = false := by simpa using fun e => h e.symm
      rw [setKey, if_neg h, List.lookup]
      simp [hb, ih]

theorem lookup_setKey_ne {α : Type} (d : List (String × α)) (k : String) (v : α)
    (j : String) (h : j ≠ k) : List.lookup j (setKey d k v) = List.lookup j d := by
  induction d with
  | nil =>
    have hb : (j == k) = false := by simpa using h
    rw [setKey, List.lookup, List.lookup]
    simp [hb]
  | cons p rest ih =>
    obtain ⟨k', v'⟩ := p
    by_cases hk : k' = k
    · subst hk
      have hb : (j == k') = false := by simpa using h
      rw [setKey, if_pos rfl, List.lookup, List.lookup]
      simp [hb]
    · rw [setKey, if_neg hk, List.lookup, List.lookup]
      cases hjk : (j == k') with
      | true => simp
      | false => simp [ih]

theorem keys_setKey {α : Type} (d : List (String × α)) (k : String) (v : α) :
    keys (setKey d k v) = if k ∈ keys d then keys d else keys d ++ [k] := by
  induction d with
  | nil => simp [setKey, keys]
  | cons p rest ih =>
    obtain ⟨k', v'⟩ := p
    by_cases h : k' = k
    · subst h
      rw [setKey, if_pos rfl, keys_cons, keys_cons]
      simp
    · rw [setKey, if_neg h, keys_cons, keys_cons, ih]
      have hne : ¬ (k = k') := fun e => h e.symm
      by_cases hm : k ∈ keys rest
      · simp [hm, hne]
      · simp [hm, hne]

theorem lookup_isSome_iff_mem_keys {α : Type} (d : List (String × α)) (k : String) :
    (List.lookup k d).isSome = true ↔ k ∈ keys d := by
  induction d with
  | nil => simp [List.lookup, keys]
  | cons p rest ih =>
    obtain ⟨k', v'⟩ := p
    rw [List.lookup, keys_cons]
    cases hb : (k == k') with
    | true =>
      have : k = k' := by simpa using hb
      simp [this]
    | false =>
      have : ¬ k = k' := by simpa using hb
      simp [this, ih]

/-! ### Scheduler loop lemmas -/

theorem runLoop_results (model_name mode_name : String) (oracle : String → ExecBehavior)
    (w : List String) :
    ∀ st, (runLoop model_name mode_name oracle w st).1
      = w.map (fun i => process_instance i model_name mode_name (oracle i)) := by
  induction w with
  | nil => intro st; rfl
  | cons i rest ih =>
    intro st
    simp only [runLoop, List.map_cons]
    rw [ih]

theorem runLoop_snd_isSome (model_name mode_name : String) (oracle : String → ExecBehavior)
    (w : List String) :
    ∀ st, (st.isSome = true ∨ w ≠ []) →
      ((runLoop model_name mode_name oracle w st).2).isSome = true := by
  induction w with
  | nil =>
    intro st h
    rcases h with h | h
    · simpa [runLoop] using h
    · exact absurd rfl h
  | cons i rest ih =>
    intro st _
    simp only [runLoop]
    exact ih _ (Or.inl rfl)

theorem runLoop_mem_keys (model_name mode_name : String) (oracle : String → ExecBehavior)
    (w : List String) :
    ∀ st k, (k ∈ keys (st.getD []) ∨ k ∈ w) →
      k ∈ keys (((runLoop model_name mode_name oracle w st).2).getD []) := by
  induction w with
  | nil =>
    intro st k h
    rcases h with h | h
    · simpa [runLoop] using h
    · simp at h
  | cons i rest ih =>
    intro st k h
    simp only [runLoop]
    rcases h with h | h
    · apply ih
      left
      rw [Option.getD_some, _update_preds, mem_keys_setKey]
      exact Or.inl h
    · rcases List.mem_cons.mp h with h | h
      · apply ih
        left
        rw [Option.getD_some, _update_preds, mem_keys_setKey]
        exact Or.inr h
      · exact ih _ k (Or.inr h)

theorem run_configuration_filter_nil (model_name mode_name : String)
    (instances : List String) (oracle : String → ExecBehavior)
    (d : List (String × PredEntry))
    (hw : instances.filter (fun i => !((keys d).contains i)) = []) :
    run_configuration model_name mode_name instances oracle false (some d)
      = { results := [], preds := some d, invocations := 0, summary := none } := by
  simp only [run_configuration, hw]

theorem run_configuration_filter_cons (model_name mode_name : String)
    (instances : List String) (oracle : String → ExecBehavior)
    (d : List (String × PredEntry)) (j : String) (js : List String)
    (hw : instances.filter (fun i => !((keys d).contains i)) = j :: js) :
    run_configuration model_name mode_name instances oracle false (some d)
      = { results := (runLoop model_name mode_name oracle (j :: js) (some d)).1,
          preds := (runLoop model_name mode_name oracle (j :: js) (some d)).2,
          invocations := (j :: js).length,
          summary := some (mk_summary model_name mode_name
            (runLoop model_name mode_name oracle (j :: js) (some d)).1) } := by
  simp only [run_configuration, hw]

theorem run_configuration_bypass (model_name mode_name : String)
    (instances : List String) (oracle : String → ExecBehavior)
    (redo_existing : Bool) (preds0 : Option (List (String × PredEntry)))
    (h : redo_existing = true ∨ preds0 = none) :
    run_configuration model_name mode_name instances oracle redo_existing preds0
      = { results := (runLoop model_name mode_name oracle instances preds0).1,
          preds := (runLoop model_name mode_name oracle instances preds0).2,
          invocations := instances.length,
          summary := some (mk_summary model_name mode_name
            (runLoop model_name mode_name oracle instances preds0).1) } := by
  rcases h with h | h
  · subst h
    cases preds0 <;> simp only [run_configuration]
  · subst h
    cases redo_existing <;> simp only [run_configuration]

theorem run_configuration_noop (model_name mode_name : String)
    (instances : List String) (oracle : String → ExecBehavior)
    (d : List (String × PredEntry)) (h : ∀ i ∈ instances, i ∈ keys d) :
    run_configuration model_name mode_name instances oracle false (some d)
      = { results := [], preds := some d, invocations := 0, summary := none } := by
  apply run_configuration_filter_nil
  rw [List.filter_eq_nil_iff]
  intro a ha
  simp [h a ha]

/-! ### Merge, parse and aggregation lemmas -/

theorem merge_configs_nil (a : List (String × Val)) : merge_configs a [] = a := by
  simp [merge_configs]

theorem merge_configs_cons (a : List (String × Val)) (k : String) (v : Val)
    (rest : List (String × Val)) :
    merge_configs a ((k, v) :: rest)
      = merge_configs (setKey a k (merge_entry (List.lookup k a) v)) rest := by
  simp [merge_configs]

theorem mem_keys_merge_configs (b : List (String × Val)) :
    ∀ (a : List (String × Val)) (k : String),
      k ∈ keys (merge_configs a b) ↔ k ∈ keys a ∨ k ∈ keys b := by
  induction b with
  | nil =>
    intro a k
    simp [merge_configs_nil, keys_nil]
  | cons p rest ih =>
    intro a k
    obtain ⟨k', v⟩ := p
    rw [merge_configs_cons, ih, mem_keys_setKey, keys_cons]
    simp only [List.mem_cons]
    tauto

theorem underscore_not_mem_rsplit (m : List Char) (h : '_' ∉ m) :
    rsplit_last m = none := by
  induction m with
  | nil => rfl
  | cons c rest ih =>
    have hc : ¬ c = '_' := by
      intro e
      exact h (e ▸ List.mem_cons_self c rest)
    have hr : '_' ∉ rest := fun hm => h (List.mem_cons_of_mem c hm)
    rw [rsplit_last, ih hr, if_neg hc]

theorem rsplit_none_not_mem (t : List Char) (h : rsplit_last t = none) : '_' ∉ t := by
  induction t with
  | nil => simp
  | cons c rest ih =>
    rw [rsplit_last] at h
    cases hr : rsplit_last rest with
    | some p => rw [hr] at h; simp at h
    | none =>
      rw [hr] at h
      by_cases hc : c = '_'
      · rw [if_pos hc] at h; simp at h
      · rw [List.mem_cons, not_or]
        exact ⟨fun e => hc e.symm, ih hr⟩

theorem rsplit_append (s m : List Char) (h : '_' ∉ m) :
    rsplit_last (s ++ '_' :: m) = some (s, m) := by
  induction s with
  | nil =>
    rw [List.nil_append, rsplit_last, underscore_not_mem_rsplit m h, if_pos rfl]
  | cons c cs ih =>
    rw [List.cons_append, rsplit_last, ih]

theorem rsplit_sound (t : List Char) :
    ∀ pre suf, rsplit_last t = some (pre, suf) → t = pre ++ '_' :: suf ∧ '_' ∉ suf := by
  induction t with
  | nil => intro pre suf h; simp [rsplit_last] at h
  | cons c rest ih =>
    intro pre suf h
    rw [rsplit_last] at h
    cases hr : rsplit_last rest with
    | some p =>
      obtain ⟨p1, p2⟩ := p
      rw [hr] at h
      simp only [Option.some.injEq, Prod.mk.injEq] at h
      obtain ⟨h1, h2⟩ := h
      obtain ⟨ht, hn⟩ := ih p1 p2 hr
      subst h1
      subst h2
      exact ⟨by rw [List.cons_append, ht], hn⟩
    | none =>
      rw [hr] at h
      by_cases hc : c = '_'
      · rw [if_pos hc] at h
        simp only [Option.some.injEq, Prod.mk.injEq] at h
        obtain ⟨h1, h2⟩ := h
        subst h1
        subst h2
        subst hc
        exact ⟨rfl, rsplit_none_not_mem rest hr⟩
      · rw [if_neg hc] at h
        simp at h

theorem foldl_add_eq_add {α : Type} (f : α → Nat) (l : List α) :
    ∀ init : Nat, l.foldl (fun acc x => acc + f x) init
      = init + l.foldl (fun acc x => acc + f x) 0 := by
  induction l with
  | nil => intro init; simp
  | cons x xs ih =>
    intro init
    rw [List.foldl_cons, List.foldl_cons, ih (init + f x), ih (0 + f x)]
    omega

theorem statsSource_no_summary (rd : RunData) (h : rd.trajectories ≠ []) :
    statsSource { rd with summary := none } = statsSource rd := by
  obtain ⟨t, ts, ht⟩ : ∃ t ts, rd.trajectories = t :: ts := by
    cases hh : rd.trajectories with
    | nil => exact absurd hh h
    | cons a l => exact ⟨a, l, rfl⟩
  simp [statsSource, trajStats, ht]

theorem compute_metrics_congr (rd rd' : RunData) (hp : rd.preds = rd'.preds)
    (hs : statsSource rd = statsSource rd') :
    compute_metrics rd = compute_metrics rd' := by
  simp only [compute_metrics, gnRecords, hp, hs]

/-! ### Claim theorems -/

/-- C1: resume idempotence.  For every instance list and oracle, after one
`run_configuration` pass with `redo` unset completes, a second pass over the
same instances with `redo` unset performs zero `process_instance` invocations,
returns the empty result list, and leaves the predictions-map state unchanged. -/
theorem resume_idempotence (model_name mode_name : String) (instances : List String)
    (oracle : String → ExecBehavior) (preds0 : Option (List (String × PredEntry))) :
    (run_configuration model_name mode_name instances oracle false
        (run_configuration model_name mode_name instances oracle false preds0).preds).invocations = 0
    ∧ (run_configuration model_name mode_name instances oracle false
        (run_configuration model_name mode_name instances oracle false preds0).preds).results = []
    ∧ (run_configuration model_name mode_name instances oracle false
        (run_configuration model_name mode_name instances oracle false preds0).preds).preds
      = (run_configuration model_name mode_name instances oracle false preds0).preds := by
  cases preds0 with
  | none =>
    cases instances with
    | nil =>
      exact ⟨rfl, rfl, rfl⟩
    | cons i rest =>
      have h1 : (run_configuration model_name mode_name (i :: rest) oracle false none).preds
          = (runLoop model_name mode_name oracle (i :: rest) none).2 := by
        rw [run_configuration_bypass model_name mode_name (i :: rest) oracle false none
          (Or.inr rfl)]
      have hs := runLoop_snd_isSome model_name mode_name oracle (i :: rest) none
        (Or.inr (by simp))
      obtain ⟨d1, hd1⟩ := Option.isSome_iff_exists.mp hs
      have hmem : ∀ i' ∈ (i :: rest), i' ∈ keys d1 := by
        intro i' hi
        have hk := runLoop_mem_keys model_name mode_name oracle (i :: rest) none i' (Or.inr hi)
        rw [hd1] at hk
        simpa using hk
      rw [h1, hd1, run_configuration_noop model_name mode_name (i :: rest) oracle d1 hmem]
      exact ⟨rfl, rfl, rfl⟩
  | some d0 =>
    cases hw : instances.filter (fun i => !((keys d0).contains i)) with
    | nil =>
      have h1 := run_configuration_filter_nil model_name mode_name instances oracle d0 hw
      simp only [h1]
      exact ⟨trivial, trivial, trivial⟩
    | cons j js =>
      have h1 := run_configuration_filter_cons model_name mode_name instances oracle d0 j js hw
      have hs := runLoop_snd_isSome model_name mode_name oracle (j :: js) (some d0) (Or.inl rfl)
      obtain ⟨d1, hd1⟩ := Option.isSome_iff_exists.mp hs
      have hmem : ∀ i ∈ instances, i ∈ keys d1 := by
        intro i hi
        by_cases hc : i ∈ keys d0
        · have hk := runLoop_mem_keys model_name mode_name oracle (j :: js) (some d0) i
            (Or.inl (by simpa using hc))
          rw [hd1] at hk
          simpa using hk
        · have hf : i ∈ instances.filter (fun i => !((keys d0).contains i)) := by
            rw [List.mem_filter]
            exact ⟨hi, by simpa using hc⟩
          rw [hw] at hf
          have hk := runLoop_mem_keys model_name mode_name oracle (j :: js) (some d0) i
            (Or.inr hf)
          rw [hd1] at hk
          simpa using hk
      simp only [h1]
      rw [hd1, run_configuration_noop model_name mode_name instances oracle d1 hmem]
      exact ⟨rfl, rfl, rfl⟩

/-- C2 counterexample: a failure of the patch-extraction step is NOT captured
into the result error fields.  With a completed agent run whose
patch extraction fails, `process_instance` leaves `error` and `traceback`
unset, keeps the agent-reported exit status, and falls back to the
agent-reported submission text instead. -/
theorem supervisor_capture_cex :
    (process_instance "inst-1" "m" "mo"
        (ExecBehavior.succeeds (some "submitted") 0 3 none
          (PatchOutcome.fails "agent-reported-patch"))).error = none
    ∧ (process_instance "inst-1" "m" "mo"
        (ExecBehavior.succeeds (some "submitted") 0 3 none
          (PatchOutcome.fails "agent-reported-patch"))).traceback = none
    ∧ (process_instance "inst-1" "m" "mo"
        (ExecBehavior.succeeds (some "submitted") 0 3 none
          (PatchOutcome.fails "agent-reported-patch"))).exit_status = some "submitted"
    ∧ (process_instance "inst-1" "m" "mo"
        (ExecBehavior.succeeds (some "submitted") 0 3 none
          (PatchOutcome.fails "agent-reported-patch"))).submission = "agent-reported-patch" :=
  ⟨rfl, rfl, rfl, rfl⟩

/-- C2 (amended): `process_instance` always returns a result record; a failure
during model/environment/agent construction or the agent run is captured into
`exit_status` (the exception class name), `error` and `traceback`; a failure of
the submission-extraction step is instead handled by falling back to the
agent-reported submission, with the error fields left unset. -/
theorem supervisor_total_capture (instance_id model_name mode_name : String)
    (b : ExecBehavior) :
    (process_instance instance_id model_name mode_name b).instance_id = instance_id
    ∧ (∀ exc msg tb, b = ExecBehavior.raises exc msg tb →
        (process_instance instance_id model_name mode_name b).exit_status = some exc
        ∧ (process_instance instance_id model_name mode_name b).error = some msg
        ∧ (process_instance instance_id model_name mode_name b).traceback = some tb
        ∧ (process_instance instance_id model_name mode_name b).submission = "")
    ∧ (∀ ex c n gn fb, b = ExecBehavior.succeeds ex c n gn (PatchOutcome.fails fb) →
        (process_instance instance_id model_name mode_name b).submission = fb
        ∧ (process_instance instance_id model_name mode_name b).error = none
        ∧ (process_instance instance_id model_name mode_name b).traceback = none
        ∧ (process_instance instance_id model_name mode_name b).exit_status = ex) := by
  refine ⟨?_, ?_, ?_⟩
  · cases b <;> rfl
  · intro exc msg tb hb
    subst hb
    exact ⟨rfl, rfl, rfl, rfl⟩
  · intro ex c n gn fb hb
    subst hb
    exact ⟨rfl, rfl, rfl, rfl⟩

theorem supervisor_total_capture_witness :
    (process_instance "inst-1" "m" "mo"
        (ExecBehavior.raises "RuntimeError" "boom" "tb-text")).exit_status = some "RuntimeError"
    ∧ (process_instance "inst-1" "m" "mo"
        (ExecBehavior.raises "RuntimeError" "boom" "tb-text")).error = some "boom"
    ∧ (process_instance "inst-1" "m" "mo"
        (ExecBehavior.raises "RuntimeError" "boom" "tb-text")).traceback = some "tb-text"
    ∧ (process_instance "inst-1" "m" "mo"
        (ExecBehavior.raises "RuntimeError" "boom" "tb-text")).submission = "" :=
  (supervisor_total_capture "inst-1" "m" "mo"
    (ExecBehavior.raises "RuntimeError" "boom" "tb-text")).2.1 "RuntimeError" "boom" "tb-text" rfl

/-- C3: partial-failure containment.  On a fresh run (no predictions file),
`run_configuration` returns exactly one result per instance; every instance id
ends up as a key of the predictions map; and every instance whose agent
invocation raises yields a result carrying the exception class name, the
message and the captured stack trace, without aborting the other instances. -/
theorem partial_failure_containment (model_name mode_name : String)
    (instances : List String) (oracle : String → ExecBehavior) (redo_existing : Bool) :
    (run_configuration model_name mode_name instances oracle redo_existing none).results.length
      = instances.length
    ∧ (∀ i ∈ instances,
        (List.lookup i (((run_configuration model_name mode_name instances oracle
          redo_existing none).preds).getD [])).isSome = true)
    ∧ (∀ i exc msg tb, i ∈ instances → oracle i = ExecBehavior.raises exc msg tb →
        ∃ r ∈ (run_configuration model_name mode_name instances oracle
            redo_existing none).results,
          r.instance_id = i ∧ r.exit_status = some exc ∧ r.error = some msg
            ∧ r.traceback = some tb) := by
  have hb := run_configuration_bypass model_name mode_name instances oracle
    redo_existing none (Or.inr rfl)
  simp only [hb]
  refine ⟨?_, ?_, ?_⟩
  · rw [runLoop_results]
    exact List.length_map _ _
  · intro i hi
    rw [lookup_isSome_iff_mem_keys]
    exact runLoop_mem_keys model_name mode_name oracle instances none i (Or.inr hi)
  · intro i exc msg tb hi hor
    refine ⟨process_instance i model_name mode_name (oracle i), ?_, ?_⟩
    · rw [runLoop_results]
      exact List.mem_map_of_mem _ hi
    · rw [hor]
      exact ⟨rfl, rfl, rfl, rfl⟩

theorem partial_failure_containment_witness :
    (run_configuration "m" "mo" ["i1", "i2", "i3", "i4", "i5"]
        oracle5 false none).results.length = 5
    ∧ (List.lookup "i3" (((run_configuration "m" "mo" ["i1", "i2", "i3", "i4", "i5"]
        oracle5 false none).preds).getD [])).isSome = true
    ∧ ∃ r ∈ (run_configuration "m" "mo" ["i1", "i2", "i3", "i4", "i5"]
        oracle5 false none).results,
        r.instance_id = "i3" ∧ r.exit_status = some "ValueError" ∧ r.error = some "boom"
          ∧ r.traceback = some "tb-i3" := by
  have h := partial_failure_containment "m" "mo" ["i1", "i2", "i3", "i4", "i5"] oracle5 false
  exact ⟨h.1, h.2.1 "i3" (by decide),
    h.2.2 "i3" "ValueError" "boom" "tb-i3" (by decide) (by simp [oracle5])⟩

/-- C4: configuration-merge determinism and precedence.  `build_config` and
`merge_configs` are deterministic; the key set of a merge is the union of the
two key sets (no nested side is dropped at any level reached by the union
lemma, and the two concrete spec examples hold: merging a mode dict holding
the nested key x with a model dict holding the nested key y under the same
outer key unions the nested keys, and a scalar conflict is won by the
model-side value). -/
theorem merge_determinism_and_precedence :
    (∀ (models modes : List (String × List (String × Val))) (model_name mode_name : String),
        build_config models modes model_name mode_name
          = build_config models modes model_name mode_name)
    ∧ (∀ (a b : List (String × Val)) (k : String),
        k ∈ keys (merge_configs a b) ↔ k ∈ keys a ∨ k ∈ keys b)
    ∧ merge_configs [("a", Val.dict [("x", Val.nat 1)])] [("a", Val.dict [("y", Val.nat 2)])]
        = [("a", Val.dict [("x", Val.nat 1), ("y", Val.nat 2)])]
    ∧ merge_configs [("a", Val.nat 1)] [("a", Val.nat 2)] = [("a", Val.nat 2)] := by
  refine ⟨fun _ _ _ _ => rfl, ?_, ?_, ?_⟩
  · intro a b k
    exact mem_keys_merge_configs b a k
  · simp [merge_configs, merge_entry, setKey, List.lookup]
  · simp [merge_configs, merge_entry, setKey, List.lookup]

/-- C5 counterexample: the usage analysis combines both metric sources.  For a
run holding both a metrics-bearing trajectory and a metrics-bearing summary
entry, the per-run totals of `gitnexus_usage` equal the SUM of the
trajectory-derived and summary-derived values (2 = 1 + 1), matching neither
single source — so the aggregator does mix the two sources within one
computation. -/
theorem metrics_source_exclusivity_cex :
    gn_usage_augment_hits rdMix = 2
    ∧ traj_augment_hits rdMix = 1
    ∧ summary_augment_hits rdMix = 1
    ∧ List.lookup "query" (gn_usage_tool_totals rdMix) = some 2
    ∧ gn_usage_augment_hits rdMix ≠ traj_augment_hits rdMix
    ∧ gn_usage_augment_hits rdMix ≠ summary_augment_hits rdMix := by
  refine ⟨rfl, rfl, rfl, rfl, ?_, ?_⟩
  · rw [show gn_usage_augment_hits rdMix = 2 from rfl,
      show traj_augment_hits rdMix = 1 from rfl]
    decide
  · rw [show gn_usage_augment_hits rdMix = 2 from rfl,
      show summary_augment_hits rdMix = 1 from rfl]
    decide

/-- C5 (amended): `compute_metrics` keeps the two sources exclusive — when any
trajectory exists its output is independent of the summary, and when no
trajectory exists it draws only on the summary — but `gitnexus_usage`, by
contrast, sums the trajectory-derived and summary-derived GitNexus values
together for each run. -/
theorem metrics_source_exclusivity_amended :
    (∀ rd : RunData, rd.trajectories ≠ [] →
      compute_metrics rd = compute_metrics { rd with summary := none })
    ∧ (∀ rd : RunData, rd.trajectories = [] → statsSource rd = summaryStats rd)
    ∧ (∀ rd : RunData, gn_usage_augment_hits rd
        = traj_augment_hits rd + summary_augment_hits rd) := by
  refine ⟨?_, ?_, ?_⟩
  · intro rd h
    exact (compute_metrics_congr { rd with summary := none } rd rfl
      (statsSource_no_summary rd h)).symm
  · intro rd h
    cases hs : rd.summary with
    | none =>
      simp [statsSource, summaryStats, summaryResults, trajStats, h, hs]
    | some l =>
      simp [statsSource, h, hs]
  · intro rd
    rw [gn_usage_augment_hits, traj_augment_hits, summary_augment_hits]
    exact foldl_add_eq_add (fun r => gnHits r.gn) (summaryResults rd) _

theorem metrics_source_exclusivity_amended_witness :
    compute_metrics rdMix = compute_metrics { rdMix with summary := none } :=
  metrics_source_exclusivity_amended.1 rdMix (by simp [rdMix])

/-- C6: the run summary counts an instance whose execution raised as
completed.  For a single-instance batch whose agent raises `ValueError`, the
supervisor stores the exception class name as the exit status, and the summary
filter `exit_status not in [None, "error"]` counts it as completed (1), because
the error marker written by the supervisor is the class name, never the
literal string checked by the filter. -/
theorem summary_counts_raised_as_completed :
    ((run_configuration "m" "mo" ["i1"]
        (fun _ => ExecBehavior.raises "ValueError" "boom" "tb") true none).summary.map
      RunSummary.completed) = some 1
    ∧ ((run_configuration "m" "mo" ["i1"]
        (fun _ => ExecBehavior.raises "ValueError" "boom" "tb") true none).results.map
      InstResult.exit_status) = [some "ValueError"] :=
  ⟨rfl, rfl⟩

/-- C7: run-identity round trip.  For every mode token in the known closed set
and every model token, parsing the formatted identity token recovers exactly
the pair; and every token whose segment after the last underscore is not a
known mode (including tokens with no underscore at all) is returned whole as
the model with mode unknown. -/
theorem run_id_round_trip :
    (∀ (s m : List Char), m ∈ known_modes → parse_run_id (s ++ '_' :: m) = (s, m))
    ∧ (∀ t : List Char,
        (∀ pre suf, t = pre ++ '_' :: suf → '_' ∉ suf → suf ∉ known_modes) →
        parse_run_id t = (t, String.toList "unknown")) := by
  constructor
  · intro s m hm
    have hm' : m = String.toList "baseline" ∨ m = String.toList "mcp"
        ∨ m = String.toList "augment" ∨ m = String.toList "full" := by
      simpa [known_modes] using hm
    have hnu : '_' ∉ m := by
      rcases hm' with h | h | h | h <;> subst h <;> decide
    rw [parse_run_id, rsplit_append s m hnu]
    simp [hm]
  · intro t ht
    cases hr : rsplit_last t with
    | none => rw [parse_run_id, hr]
    | some p =>
      obtain ⟨pre, suf⟩ := p
      obtain ⟨hteq, hnm⟩ := rsplit_sound t pre suf hr
      rw [parse_run_id, hr]
      simp [ht pre suf hteq hnm]

theorem run_id_round_trip_witness :
    parse_run_id (String.toList "claude-sonnet" ++ '_' :: String.toList "full")
      = (String.toList "claude-sonnet", String.toList "full")
    ∧ parse_run_id (String.toList "claude")
      = (String.toList "claude", String.toList "unknown") := by
  constructor
  · exact run_id_round_trip.1 (String.toList "claude-sonnet") (String.toList "full")
      (by decide)
  · apply run_id_round_trip.2
    intro pre suf h hs
    exfalso
    have hu : ('_' : Char) ∈ pre ++ '_' :: suf :=
      List.mem_append_right pre (List.mem_cons_self _ _)
    rw [← h] at hu
    revert hu
    decide

/-- C8: metric floors.  With an empty predictions map, `compute_metrics`
returns patch rate 0 and its cost and call averages equal the totals (the
denominator is floored at 1), and with no GitNexus metric records the
augmentation-hit rate (and the tool-call average) is 0 rather than a division
failure. -/
theorem metric_floors (rd : RunData) :
    (rd.preds = [] →
      (compute_metrics rd).patch_rate = 0
      ∧ (compute_metrics rd).avg_cost = (compute_metrics rd).total_cost
      ∧ (compute_metrics rd).avg_api_calls = ((compute_metrics rd).total_api_calls : Rat))
    ∧ (gnRecords rd = [] →
      (compute_metrics rd).augment_hit_rate = 0
      ∧ (compute_metrics rd).avg_gn_tool_calls = 0) := by
  constructor
  · intro hp
    refine ⟨?_, ?_, ?_⟩ <;> simp [compute_metrics, hp]
  · intro hg
    refine ⟨?_, ?_⟩ <;> simp [compute_metrics, hg]

theorem metric_floors_witness :
    (compute_metrics rdEmpty).patch_rate = 0
    ∧ (compute_metrics rdEmpty).augment_hit_rate = 0 := by
  have h := metric_floors rdEmpty
  exact ⟨(h.1 rfl).1, (h.2 rfl).1⟩

/-- C9 counterexample: not every average denominator of `compute_metrics` is
the predictions key count.  For a run with two predictions entries but one
metrics-bearing trajectory, the GitNexus tool-call average divides by the
number of metric records (giving 4), not by the predictions key count (which
would give 2). -/
theorem avg_denominator_cex :
    (compute_metrics rdTraj).avg_gn_tool_calls = 4
    ∧ rdTraj.preds.length = 2
    ∧ (compute_metrics rdTraj).total_gn_tool_calls = 4
    ∧ (compute_metrics rdTraj).avg_gn_tool_calls
        ≠ ((compute_metrics rdTraj).total_gn_tool_calls : Rat)
            / ((max rdTraj.preds.length 1 : Nat) : Rat) := by
  have h1 : (compute_metrics rdTraj).avg_gn_tool_calls = 4 := by
    simp [compute_metrics, rdTraj, gnFour, gnRecords, statsSource, trajStats]
  have h2 : (compute_metrics rdTraj).total_gn_tool_calls = 4 := rfl
  have h3 : rdTraj.preds.length = 2 := rfl
  refine ⟨h1, h3, h2, ?_⟩
  rw [h1, h2, h3]
  norm_num

/-- C9 (amended): the cost and API-call average denominators of
`compute_metrics` are the predictions-map key count (floored at 1), while the
GitNexus tool-call average divides by the number of metric records; in
particular, with an empty predictions map the instance count is 0 and the
cost/call averages equal the totals even when the totals were accumulated from
trajectory records. -/
theorem avg_denominators (rd : RunData) :
    (compute_metrics rd).avg_cost
        = (compute_metrics rd).total_cost / ((max rd.preds.length 1 : Nat) : Rat)
    ∧ (compute_metrics rd).avg_api_calls
        = ((compute_metrics rd).total_api_calls : Rat) / ((max rd.preds.length 1 : Nat) : Rat)
    ∧ (gnRecords rd ≠ [] →
        (compute_metrics rd).avg_gn_tool_calls
          = ((compute_metrics rd).total_gn_tool_calls : Rat)
              / ((max (gnRecords rd).length 1 : Nat) : Rat))
    ∧ (rd.preds = [] →
        (compute_metrics rd).n_instances = 0
        ∧ (compute_metrics rd).avg_cost = (compute_metrics rd).total_cost
        ∧ (compute_metrics rd).avg_api_calls = ((compute_metrics rd).total_api_calls : Rat)) := by
  refine ⟨rfl, rfl, ?_, ?_⟩
  · intro hg
    have hne : ((gnRecords rd).map GN.total_tool_calls).isEmpty = false := by
      simp [List.isEmpty_iff, hg]
    simp [compute_metrics, hne, List.length_map]
  · intro hp
    refine ⟨?_, ?_, ?_⟩ <;> simp [compute_metrics, hp]

theorem avg_denominators_witness :
    (compute_metrics rdW).n_instances = 0
    ∧ (compute_metrics rdW).avg_cost = (compute_metrics rdW).total_cost
    ∧ (compute_metrics rdW).avg_gn_tool_calls
        = ((compute_metrics rdW).total_gn_tool_calls : Rat)
            / ((max (gnRecords rdW).length 1 : Nat) : Rat) := by
  have h := avg_denominators rdW
  exact ⟨(h.2.2.2 rfl).1, (h.2.2.2 rfl).2.1, h.2.2.1 (by decide)⟩

/-- C10: frame property of the predictions-map update.  `_update_preds`
produces exactly the prior map with the entry at the updated instance id
replaced by the record holding the model name, the instance id and the
submission text of the result; every other key maps to its previous value, and
the key list gains the id exactly when it was absent. -/
theorem update_preds_frame (D : List (String × PredEntry))
    (i model_name : String) (result : InstResult) :
    List.lookup i (_update_preds D i model_name result)
      = some { model_name_or_path := model_name, instance_id := i,
               model_patch := result.submission }
    ∧ (∀ j, j ≠ i → List.lookup j (_update_preds D i model_name result) = List.lookup j D)
    ∧ keys (_update_preds D i model_name result)
      = (if i ∈ keys D then keys D else keys D ++ [i]) :=
  ⟨lookup_setKey_self D i _,
   fun j hj => lookup_setKey_ne D i _ j hj,
   keys_setKey D i _⟩

theorem update_preds_frame_witness :
    List.lookup "other-id"
        (_update_preds [("other-id",
            { model_name_or_path := "m", instance_id := "other-id", model_patch := "p0" })]
          "inst-1" "m"
          (process_instance "inst-1" "m" "mo"
            (ExecBehavior.succeeds (some "done") 0 1 none (PatchOutcome.ok "diff"))))
      = List.lookup "other-id" [("other-id",
          { model_name_or_path := "m", instance_id := "other-id", model_patch := "p0" })] :=
  (update_preds_frame [("other-id",
      { model_name_or_path := "m", instance_id := "other-id", model_patch := "p0" })]
    "inst-1" "m"
    (process_instance "inst-1" "m" "mo"
      (ExecBehavior.succeeds (some "done") 0 1 none (PatchOutcome.ok "diff")))).2.1
    "other-id" (by decide)
